import Mathlib

/-!
Verification development for the terra-mystica multi-agent consensus
orchestration engine.  The repository ships the orchestration subsystem as
narrative documentation (docs/AGENT_ARCHITECTURE.md, docs/CREWAI_IMPLEMENTATION.md,
the part_009 implementation summary) rather than as executable source, so the
engine-side definitions below are modelled from the specification text;
the upload-page state updates at the end are translated directly from
frontend/app/upload/page.tsx.
-/

set_option maxHeartbeats 1000000

/-- Modelled from the spec: the fixed enumerated set of specialist agent roles
(§2, docs table in part_009); the engine implementation is missing from src/. -/
inductive AgentRole where
  | geographic
  | visual
  | environmental
  | cultural
  | validation
  | research
deriving DecidableEq, Repr

/-- Modelled from the spec: a Finding (§3) — one specialist's location
hypothesis (here the coordinate form, as latitude/longitude rationals) with a
confidence, the producing role, a stable id, and a flag recording whether its
evidence was verified (false when it came through a tripped circuit breaker,
§4.3).  The engine implementation is missing from src/. -/
structure Finding where
  fid : Nat
  role : AgentRole
  lat : ℚ
  lon : ℚ
  confidence : ℚ
  verified : Bool
deriving DecidableEq, Repr

/-- Modelled from the spec: the ConsensusEngine configuration surface (§6) —
per-role reliability coefficient, cluster radius (kept as a squared-distance
threshold), unverified-evidence discount, top-k, minimum viable cluster weight
(§7 AggregationConflictError) and the degraded-mode confidence penalty (§4.5). -/
structure ConsensusConfig where
  reliability : AgentRole → ℚ
  radiusSq : ℚ
  unverifiedDiscount : ℚ
  topK : Nat
  minViableWeight : ℚ
  degradedPenalty : ℚ

/-- Modelled from the spec: squared planar distance between two hypotheses,
standing in for the geographic distance of §4.4/§4.5. -/
def distSq (f g : Finding) : ℚ :=
  (f.lat - g.lat) ^ 2 + (f.lon - g.lon) ^ 2

/-- Modelled from the spec: the fixed-radius merge test of §4.5 step 2. -/
def near (cfg : ConsensusConfig) (f g : Finding) : Bool :=
  distSq f g ≤ cfg.radiusSq

/-- Modelled from the spec: one Finding's weight contribution (§4.5 step 3) —
role-reliability coefficient × confidence × (1 if verified, else the
configured unverified discount). -/
def findingWeight (cfg : ConsensusConfig) (f : Finding) : ℚ :=
  cfg.reliability f.role * f.confidence * (if f.verified then 1 else cfg.unverifiedDiscount)

/-- Modelled from the spec: a cluster's weight is the sum of its members'
weight contributions (§4.5 step 3). -/
def clusterWeight (cfg : ConsensusConfig) (c : List Finding) : ℚ :=
  (c.map (findingWeight cfg)).sum

/-- Modelled from the spec: insert one Finding into the first existing cluster
containing a member within the configured radius, else open a new cluster at
the end; clusters keep their formation order (§4.5 step 2, tie-break note). -/
def insertFinding (cfg : ConsensusConfig) (f : Finding) :
    List (List Finding) → List (List Finding)
  | [] => [[f]]
  | c :: cs =>
      if c.any (near cfg f) then (c ++ [f]) :: cs
      else c :: insertFinding cfg f cs

/-- Modelled from the spec: the fixed-radius agglomerative clustering pass of
§4.5 step 2 over the pooled Findings. -/
def buildClusters (cfg : ConsensusConfig) (fs : List Finding) : List (List Finding) :=
  fs.foldl (fun cs f => insertFinding cfg f cs) []

/-- Modelled from the spec: canonical processing order — Findings are ordered
by their id so that the algorithm is a function of the collected set, giving
the reproducibility tie-break "lowest id" of §4.5. -/
def byId (f g : Finding) : Prop := f.fid ≤ g.fid

instance : DecidableRel byId := fun f g => inferInstanceAs (Decidable (f.fid ≤ g.fid))

instance : IsTotal Finding byId := ⟨fun f g => Nat.le_total f.fid g.fid⟩

instance : IsTrans Finding byId := ⟨fun _ _ _ h h' => Nat.le_trans h h'⟩

/-- Modelled from the spec: strict version of the canonical id order, used to
show the canonical order is unique when ids are distinct. -/
def byIdStrict (f g : Finding) : Prop := f.fid < g.fid

instance : IsAntisymm Finding byIdStrict :=
  ⟨fun _ _ h h' => absurd (Nat.lt_trans h h') (Nat.lt_irrefl _)⟩

/-- Modelled from the spec: sort the pooled Findings into the canonical id
order (§4.5 determinism note). -/
def canonicalOrder (fs : List Finding) : List Finding :=
  List.insertionSort byId fs

/-- Modelled from the spec: ordering of clusters by non-increasing weight,
used to rank the alternatives (§4.5 step 6); insertion sort is stable, so
equal-weight clusters keep their formation order. -/
def weightGE (cfg : ConsensusConfig) (a b : List Finding) : Prop :=
  clusterWeight cfg b ≤ clusterWeight cfg a

instance (cfg : ConsensusConfig) : DecidableRel (weightGE cfg) := fun a b =>
  inferInstanceAs (Decidable (clusterWeight cfg b ≤ clusterWeight cfg a))

instance (cfg : ConsensusConfig) : IsTotal (List Finding) (weightGE cfg) :=
  ⟨fun a b => le_total (clusterWeight cfg b) (clusterWeight cfg a)⟩

instance (cfg : ConsensusConfig) : IsTrans (List Finding) (weightGE cfg) :=
  ⟨fun _ _ _ h h' => le_trans h' h⟩

def sortClustersByWeight (cfg : ConsensusConfig) (cs : List (List Finding)) :
    List (List Finding) :=
  List.insertionSort (weightGE cfg) cs

/-- Modelled from the spec: fold selecting the heaviest cluster, keeping the
earlier cluster on ties (formation-order tie-break, §4.5). -/
def foldBest (cfg : ConsensusConfig) (c : List Finding) (cs : List (List Finding)) :
    List Finding :=
  cs.foldl (fun best d => if clusterWeight cfg best < clusterWeight cfg d then d else best) c

/-- Modelled from the spec: §4.5 step 4, the highest-weight cluster becomes
the primary prediction; `none` when there are no clusters at all. -/
def pickPrimary (cfg : ConsensusConfig) : List (List Finding) → Option (List Finding)
  | [] => none
  | c :: cs => some (foldBest cfg c cs)

/-- Modelled from the spec: per-stage information consumed by the consensus
confidence computation — the degraded-mode flag and the contradiction pairs
(by Finding id) that the ResultAggregator recorded for that stage (§4.4, §4.5
step 5). -/
structure StageInfo where
  degraded : Bool
  contradictions : List (Nat × Nat)
deriving DecidableEq, Repr

/-- Modelled from the spec: whether a contradiction pair involves a member of
the primary cluster (§4.5 step 5). -/
def touchesCluster (c : List Finding) (p : Nat × Nat) : Bool :=
  c.any (fun f => f.fid = p.1 || f.fid = p.2)

/-- Modelled from the spec: fraction of stages reporting no contradiction
involving the primary cluster's members (§4.5 step 5). -/
def cleanStageFraction (c : List Finding) (stages : List StageInfo) : ℚ :=
  if stages.isEmpty then 1
  else (stages.countP (fun s => !s.contradictions.any (touchesCluster c)) : ℚ) / stages.length

def clamp01 (x : ℚ) : ℚ := max 0 (min 1 x)

/-- Modelled from the spec: final confidence (§4.5 step 5) — monotonic in the
primary cluster's weight share and the clean-stage fraction, reduced by a
fixed penalty per degraded stage, clamped to [0,1]. -/
def finalConfidence (cfg : ConsensusConfig) (share cleanFrac : ℚ) (degradedCount : Nat) : ℚ :=
  clamp01 (share * cleanFrac - cfg.degradedPenalty * degradedCount)

/-- Modelled from the spec: a primary or alternative prediction (§3
ConsensusResult) — representative coordinate (weighted centroid), confidence
share, and supporting-cluster size. -/
structure Prediction where
  lat : ℚ
  lon : ℚ
  confidence : ℚ
  clusterSize : Nat
deriving DecidableEq, Repr

/-- Modelled from the spec: build the representative prediction of a cluster —
the weighted centroid of its members and its share of the total weight
(§4.5 step 4). -/
def mkPrediction (cfg : ConsensusConfig) (total : ℚ) (c : List Finding) : Prediction :=
  let w := clusterWeight cfg c
  { lat := (c.map (fun f => findingWeight cfg f * f.lat)).sum / w
    lon := (c.map (fun f => findingWeight cfg f * f.lon)).sum / w
    confidence := w / total
    clusterSize := c.length }

/-- Modelled from the spec: the ConsensusResult record (§3) — primary cluster
and its prediction, ranked alternative clusters with their predictions, final
confidence, and the contributing Findings in canonical order. -/
structure ConsensusResult where
  primaryCluster : List Finding
  primary : Prediction
  alternatives : List (List Finding)
  altPredictions : List Prediction
  confidence : ℚ
  contributing : List Finding
deriving DecidableEq, Repr

/-- Modelled from the spec: total weight across all clusters (§4.5 step 5,
denominator of the primary cluster's weight share). -/
def totalWeight (cfg : ConsensusConfig) (cs : List (List Finding)) : ℚ :=
  (cs.map (clusterWeight cfg)).sum

/-- Modelled from the spec: §4.5 step 6 — the non-primary clusters, ordered by
non-increasing weight and truncated to the configured top-k. -/
def rankedAlternatives (cfg : ConsensusConfig) (sorted primary : List Finding) :
    List (List Finding) :=
  (sortClustersByWeight cfg ((buildClusters cfg sorted).erase primary)).take cfg.topK

/-- Modelled from the spec: assemble the ConsensusResult (§3, §4.5 steps 4-6)
for a given primary cluster over the canonically ordered Findings. -/
def mkResult (cfg : ConsensusConfig) (stages : List StageInfo)
    (sorted primary : List Finding) : ConsensusResult :=
  { primaryCluster := primary
    primary := mkPrediction cfg (totalWeight cfg (buildClusters cfg sorted)) primary
    alternatives := rankedAlternatives cfg sorted primary
    altPredictions := (rankedAlternatives cfg sorted primary).map
      (mkPrediction cfg (totalWeight cfg (buildClusters cfg sorted)))
    confidence := finalConfidence cfg
      (clusterWeight cfg primary / totalWeight cfg (buildClusters cfg sorted))
      (cleanStageFraction primary stages) (stages.countP (·.degraded))
    contributing := sorted }

/-- Modelled from the spec: the ConsensusEngine core (§4.5) applied to an
already canonically ordered pool of Findings: cluster, pick the heaviest
cluster as primary (failing with the pooled Findings when no cluster reaches
the minimum viable weight, §7 AggregationConflictError), rank the remaining
clusters by weight, truncate to top-k, and calibrate the final confidence. -/
def consensusSorted (cfg : ConsensusConfig) (stages : List StageInfo)
    (sorted : List Finding) : Except (List Finding) ConsensusResult :=
  match pickPrimary cfg (buildClusters cfg sorted) with
  | none => .error sorted
  | some primary =>
      if clusterWeight cfg primary < cfg.minViableWeight then .error sorted
      else .ok (mkResult cfg stages sorted primary)

/-- Modelled from the spec: the ConsensusEngine aggregation (§4.5) on a
collected pool of Findings: canonicalise the order, then run the core. -/
def consensus (cfg : ConsensusConfig) (stages : List StageInfo)
    (fs : List Finding) : Except (List Finding) ConsensusResult :=
  consensusSorted cfg stages (canonicalOrder fs)

/-- Modelled from the spec: AgentTask states (§3); the orchestrator
implementation is missing from src/ (the repo documents the pipeline
narratively in docs/ and part_009). -/
inductive TaskState where
  | pending
  | running
  | done
  | failed
  | skipped
deriving DecidableEq, Repr

/-- Modelled from the spec: progress rank of a task state along the forward
path PENDING → RUNNING → terminal (§3 invariant). -/
def TaskState.rank : TaskState → Nat
  | .pending => 0
  | .running => 1
  | .done => 2
  | .failed => 2
  | .skipped => 2

/-- Modelled from the spec: the allowed within-attempt state transitions of an
AgentTask (§3 invariant: PENDING→RUNNING→{DONE|FAILED}). -/
def canStep : TaskState → TaskState → Bool
  | .pending, .running => true
  | .running, .done => true
  | .running, .failed => true
  | _, _ => false

/-- Modelled from the spec: the AgentTask record (§3) — id, owning request,
stage number, state and attempt count. -/
structure AgentTask where
  tid : Nat
  requestId : Nat
  stage : Nat
  state : TaskState
  attempts : Nat
deriving DecidableEq, Repr

/-- Modelled from the spec: retrying a FAILED task (§3, §4.1) — while under
the configured maximum attempt count it starts a new attempt (same task id,
attempt count incremented); otherwise the task is left as it is. -/
def retryTask (maxAttempts : Nat) (t : AgentTask) : AgentTask :=
  if t.state = TaskState.failed ∧ t.attempts < maxAttempts then
    { t with state := TaskState.pending, attempts := t.attempts + 1 }
  else t

/-- Modelled from the spec: the per-attempt error taxonomy absorbed inside the
orchestrator (§7). -/
inductive AttemptError where
  | timeout
  | outputInvalid
  | externalService
deriving DecidableEq, Repr

/-- Modelled from the spec: what one attempt of a specialist worker yields at
the AgentExecutor boundary (§4.2): a Finding or a typed error. -/
inductive AttemptOutcome where
  | ok (f : Finding)
  | err (e : AttemptError)
deriving DecidableEq, Repr

/-- Modelled from the spec: run one AgentTask through up to `maxAttempts`
attempts drawn from a script of attempt outcomes (§4.1 retry policy): the
first successful attempt makes the task DONE with its Finding; exhausting the
attempts leaves it FAILED; every per-attempt error is recorded, never
re-raised. -/
def runTask : Nat → List AttemptOutcome → TaskState × Option Finding × List AttemptError
  | 0, _ => (TaskState.failed, none, [])
  | _ + 1, [] => (TaskState.failed, none, [])
  | _ + 1, AttemptOutcome.ok f :: _ => (TaskState.done, some f, [])
  | n + 1, AttemptOutcome.err e :: rest =>
      let r := runTask n rest
      (r.1, r.2.1, e :: r.2.2)

/-- Modelled from the spec: the terminal record of one executed AgentTask —
final state, Finding (when DONE) and locally recorded attempt errors (§7
propagation policy). -/
structure TaskRecord where
  tid : Nat
  state : TaskState
  finding : Option Finding
  errors : List AttemptError
deriving DecidableEq, Repr

/-- Modelled from the spec: execute one AgentTask to a terminal record,
absorbing all per-attempt errors (§4.2, §7). -/
def executeTask (maxAttempts : Nat) (tid : Nat) (script : List AttemptOutcome) : TaskRecord :=
  let r := runTask maxAttempts script
  { tid := tid, state := r.1, finding := r.2.1, errors := r.2.2 }

/-- Modelled from the spec: orchestrator configuration (§6) — stage quorum
fraction, retry maximum, divergence threshold for contradiction detection
(kept squared) and the ConsensusEngine configuration. -/
structure OrchConfig where
  quorum : ℚ
  maxAttempts : Nat
  divergeSq : ℚ
  ccfg : ConsensusConfig

/-- Modelled from the spec: stage quorum check (§4.1) — met when at least the
configured fraction of the stage's tasks reached DONE. -/
def quorumMet (q : ℚ) (recs : List TaskRecord) : Bool :=
  q * recs.length ≤ (recs.countP (fun r => decide (r.state = TaskState.done)) : ℚ)

/-- Modelled from the spec: the Findings produced by a stage's DONE tasks
(§4.4). -/
def stageFindings (recs : List TaskRecord) : List Finding :=
  recs.filterMap (·.finding)

/-- Modelled from the spec: the ResultAggregator's contradiction detection
(§4.4) — every pair of Findings whose divergence exceeds the configured
threshold, recorded by Finding id. -/
def contraPairs (thr : ℚ) : List Finding → List (Nat × Nat)
  | [] => []
  | f :: rest =>
      (rest.filter (fun g => decide (thr < distSq f g))).map (fun g => (f.fid, g.fid))
        ++ contraPairs thr rest

/-- Modelled from the spec: the per-stage summary information handed to the
ConsensusEngine — degraded flag (quorum met but not all tasks DONE, §4.1) and
the stage's contradiction pairs (§4.4). -/
def mkStageInfo (cfg : OrchConfig) (recs : List TaskRecord) : StageInfo :=
  { degraded := quorumMet cfg.quorum recs
      && !recs.all (fun r => decide (r.state = TaskState.done))
    contradictions := contraPairs cfg.divergeSq (stageFindings recs) }

/-- Modelled from the spec: request-level failure reason codes (§7). -/
inductive FailureReason where
  | invalidInput
  | quorumNotMet
  | aggregationConflict
deriving DecidableEq, Repr

/-- Modelled from the spec: the terminal (or still-running) fate of an
AnalysisRequest (§4.1 state machine): a ConsensusResult on completion, or a
structured failure carrying the reason code and the partial Findings gathered
so far (§7). -/
inductive RequestFinal where
  | inProgress
  | completed (r : ConsensusResult)
  | failed (reason : FailureReason) (gathered : List Finding)
deriving DecidableEq, Repr

/-- Modelled from the spec: what `getResult` returns to the caller (§4.1,
§7 user-visible behavior): not ready, a success payload, or a structured
failure object — never an untyped exception. -/
inductive ResultView where
  | notReady
  | success (r : ConsensusResult)
  | failure (reason : FailureReason) (gathered : List Finding)
deriving DecidableEq, Repr

/-- Modelled from the spec: `getResult` (§4.1): total over every request
fate; a FAILED request yields the recorded reason code plus the partial
Findings. -/
def getResult : RequestFinal → ResultView
  | RequestFinal.inProgress => ResultView.notReady
  | RequestFinal.completed r => ResultView.success r
  | RequestFinal.failed reason gathered => ResultView.failure reason gathered

/-- Modelled from the spec: the TaskOrchestrator's stage loop (§4.1) over the
terminal task records of each stage, accumulating Findings and stage
summaries: a stage missing quorum fails the request with QuorumNotMetError
and the Findings gathered so far; after the last stage the ConsensusEngine
runs, with AggregationConflictError surfacing as a failed request carrying
the raw Findings. -/
def runRequestGo (cfg : OrchConfig) :
    List (List TaskRecord) → List Finding → List StageInfo → RequestFinal
  | [], accF, accI =>
      match consensus cfg.ccfg accI accF with
      | Except.ok r => RequestFinal.completed r
      | Except.error fs => RequestFinal.failed FailureReason.aggregationConflict fs
  | s :: rest, accF, accI =>
      if quorumMet cfg.quorum s then
        runRequestGo cfg rest (accF ++ stageFindings s) (accI ++ [mkStageInfo cfg s])
      else RequestFinal.failed FailureReason.quorumNotMet (accF ++ stageFindings s)

/-- Modelled from the spec: drive one AnalysisRequest through its stages to a
terminal fate (§4.1). -/
def runRequest (cfg : OrchConfig) (stages : List (List TaskRecord)) : RequestFinal :=
  runRequestGo cfg stages [] []

/-- Modelled from the spec: terminal task states (§4.1 stage advancement). -/
def TaskState.isTerminal : TaskState → Bool
  | .done => true
  | .failed => true
  | .skipped => true
  | _ => false

/-- Modelled from the spec: a fully completed stage — its tasks' terminal
states and the fact that its StageSummary has been formed (§5 ordering
guarantees). -/
structure StageRec where
  tasks : List TaskState
  summaryFormed : Bool
deriving DecidableEq, Repr

/-- Modelled from the spec: the orchestration context of one request (§5):
the completed stages in order, and at most one in-flight stage whose tasks
carry (target outcome, current state) pairs. -/
structure OrchState where
  doneStages : List StageRec
  current : Option (List (TaskState × TaskState))
deriving DecidableEq, Repr

/-- Modelled from the spec: advance one task towards its scripted terminal
outcome: PENDING→RUNNING→target (§3 invariant). -/
def stepTask (target s : TaskState) : TaskState :=
  match s with
  | TaskState.pending => TaskState.running
  | TaskState.running => if target.isTerminal then target else TaskState.done
  | t => t

def initOrch : OrchState := { doneStages := [], current := none }

/-- Modelled from the spec: one scheduling step of the TaskOrchestrator for a
request whose stage outcomes are scripted (§4.1, §5): when the in-flight
stage's tasks are all terminal its summary is formed and the stage is sealed;
otherwise its tasks advance; the next stage's tasks are created only when no
stage is in flight, so Stage N's summary exists before any Stage N+1 task. -/
def orchStep (script : List (List TaskState)) (st : OrchState) : OrchState :=
  match st.current with
  | some ps =>
      if ps.all (fun p => p.2.isTerminal) then
        { doneStages := st.doneStages ++ [{ tasks := ps.map (·.2), summaryFormed := true }]
          current := none }
      else { st with current := some (ps.map (fun p => (p.1, stepTask p.1 p.2))) }
  | none =>
      if h : st.doneStages.length < script.length then
        { st with
            current := some ((script.get ⟨st.doneStages.length, h⟩).map
              (fun tgt => (tgt, TaskState.pending))) }
      else st

/-- Translated from frontend/app/upload/page.tsx: upload status union. -/
inductive UploadStatus where
  | uploading
  | completed
  | error
deriving DecidableEq, Repr

/-- Translated from frontend/app/upload/page.tsx: thumbnails field object. -/
structure Thumbnails where
  small : Option String
  medium : Option String
  large : Option String
deriving DecidableEq, Repr

/-- Translated from frontend/app/upload/page.tsx: the UploadedImage entry of
the upload page's state list. -/
structure UploadedImage where
  id : String
  filename : String
  originalFilename : String
  fileSize : Nat
  status : UploadStatus
  progress : ℚ
  preview : Option String
  s3Url : Option String
  thumbnails : Option Thumbnails
  error : Option String
deriving DecidableEq, Repr

/-- Translated from frontend/app/upload/page.tsx `retryUpload`: map over the
list, and for the entry whose id matches set status to "uploading", progress
to 0 and clear the error; all other entries are returned unchanged. -/
def retryUpload (imageId : String) (imgs : List UploadedImage) : List UploadedImage :=
  imgs.map (fun img =>
    if img.id = imageId then
      { img with status := UploadStatus.uploading, progress := 0, error := none }
    else img)

/-- Translated from frontend/app/upload/page.tsx `handleUploadProgress`: map
over the list, replacing only the matching entry's progress field. -/
def handleUploadProgress (imageId : String) (progress : ℚ)
    (imgs : List UploadedImage) : List UploadedImage :=
  imgs.map (fun img => if img.id = imageId then { img with progress := progress } else img)

def taskW : AgentTask :=
  { tid := 7, requestId := 1, stage := 0, state := TaskState.failed, attempts := 1 }

def cfg7 : ConsensusConfig :=
  { reliability := fun _ => 1, radiusSq := 1, unverifiedDiscount := 1/2,
    topK := 3, minViableWeight := 0, degradedPenalty := 1/10 }

def f7 : Finding :=
  { fid := 1, role := AgentRole.geographic, lat := 0, lon := 0,
    confidence := 1/2, verified := true }

def cfg8 : ConsensusConfig :=
  { reliability := fun _ => 1, radiusSq := 1, unverifiedDiscount := 1/2,
    topK := 3, minViableWeight := 0, degradedPenalty := 1/10 }

def imgA : UploadedImage :=
  { id := "a", filename := "a.jpg", originalFilename := "a.jpg", fileSize := 10,
    status := UploadStatus.error, progress := 1/2, preview := none,
    s3Url := none, thumbnails := none, error := some "boom" }

def imgB : UploadedImage :=
  { imgA with id := "b", error := none, status := UploadStatus.completed, progress := 1 }

def emptyPrediction : Prediction :=
  { lat := 0, lon := 0, confidence := 0, clusterSize := 0 }

def emptyConsensus : ConsensusResult :=
  { primaryCluster := [], primary := emptyPrediction, alternatives := [],
    altPredictions := [], confidence := 0, contributing := [] }

def cfg1w : ConsensusConfig :=
  { reliability := fun _ => 1, radiusSq := 1, unverifiedDiscount := 1,
    topK := 2, minViableWeight := 0, degradedPenalty := 0 }

def fa : Finding :=
  { fid := 1, role := AgentRole.geographic, lat := 0, lon := 0,
    confidence := 1, verified := true }

def fb : Finding :=
  { fa with fid := 2, lat := 5 }

def cfg2w : ConsensusConfig :=
  { reliability := fun _ => 1, radiusSq := 1, unverifiedDiscount := 1,
    topK := 2, minViableWeight := 0, degradedPenalty := 0 }

def g2w : Finding :=
  { fid := 1, role := AgentRole.validation, lat := 2, lon := 3,
    confidence := 1, verified := true }

def r2w : ConsensusResult := mkResult cfg2w [] [g2w] [g2w]

def cfg3o : OrchConfig :=
  { quorum := 1, maxAttempts := 2, divergeSq := 100, ccfg := cfg2w }

def recF : TaskRecord :=
  { tid := 1, state := TaskState.failed, finding := none,
    errors := [AttemptError.timeout] }

def cfg9 : ConsensusConfig :=
  { reliability := fun _ => 1, radiusSq := 1, unverifiedDiscount := 1,
    topK := 2, minViableWeight := 0, degradedPenalty := 0 }

def g1 : Finding :=
  { fid := 1, role := AgentRole.geographic, lat := 0, lon := 0,
    confidence := 7/10, verified := true }

def g2 : Finding :=
  { fid := 2, role := AgentRole.visual, lat := 0, lon := 0,
    confidence := 7/10, verified := true }

def g3 : Finding :=
  { fid := 3, role := AgentRole.environmental, lat := 100, lon := 0,
    confidence := 9/10, verified := true }

def res9 : ConsensusResult := (consensus cfg9 [] [g1, g2, g3]).toOption.getD emptyConsensus

def script0 : List (List TaskState) := [[TaskState.done]]

/-- C5: a task's state may only move forward through
PENDING→RUNNING→{DONE|FAILED} (every allowed transition strictly increases the
progress rank), and retrying a FAILED task below the configured maximum
attempt count produces a new attempt under the same task id (id and owning
request unchanged, attempt count incremented), while outside that window the
task is left untouched — a new task id is never produced. -/
theorem task_state_forward_retry_same_id :
    (∀ s t : TaskState, canStep s t = true → s.rank < t.rank) ∧
    (∀ (m : Nat) (t : AgentTask),
      (retryTask m t).tid = t.tid ∧
      (retryTask m t).requestId = t.requestId ∧
      (t.state = TaskState.failed → t.attempts < m →
        (retryTask m t).attempts = t.attempts + 1 ∧
        (retryTask m t).state = TaskState.pending) ∧
      (¬(t.state = TaskState.failed ∧ t.attempts < m) → retryTask m t = t)) := by
  constructor
  · intro s t h
    cases s <;> cases t <;> simp_all [canStep, TaskState.rank]
  · intro m t
    unfold retryTask
    by_cases h : t.state = TaskState.failed ∧ t.attempts < m
    · rw [if_pos h]
      exact ⟨rfl, rfl, fun _ _ => ⟨rfl, rfl⟩, fun hc => absurd h hc⟩
    · rw [if_neg h]
      exact ⟨rfl, rfl, fun h1 h2 => absurd ⟨h1, h2⟩ h, fun _ => rfl⟩

/-- Witness for C5 at a concrete transition and a concrete retried task. -/
theorem task_state_forward_retry_same_id_check :
    TaskState.rank TaskState.pending < TaskState.rank TaskState.running ∧
    (retryTask 3 taskW).tid = taskW.tid ∧
    (retryTask 3 taskW).attempts = taskW.attempts + 1 :=
  ⟨task_state_forward_retry_same_id.1 TaskState.pending TaskState.running (by decide),
   (task_state_forward_retry_same_id.2 3 taskW).1,
   ((task_state_forward_retry_same_id.2 3 taskW).2.2.1 (by decide) (by decide)).1⟩

/-- C7: with a positive role-reliability coefficient, positive confidence, and
an unverified-evidence discount below 1, a Finding identical except for
unverified evidence (circuit-breaker path) contributes strictly less weight to
its cluster than the verified one. -/
theorem unverified_discount_strict (cfg : ConsensusConfig) (f : Finding)
    (rest : List Finding) (hrel : 0 < cfg.reliability f.role)
    (hconf : 0 < f.confidence) (hdisc : cfg.unverifiedDiscount < 1)
    (hver : f.verified = true) :
    clusterWeight cfg ({ f with verified := false } :: rest) <
      clusterWeight cfg (f :: rest) := by
  have hbase : 0 < cfg.reliability f.role * f.confidence := mul_pos hrel hconf
  have hw : findingWeight cfg { f with verified := false } < findingWeight cfg f := by
    simp only [findingWeight, hver, if_true, Bool.false_eq_true, if_false]
    calc cfg.reliability f.role * f.confidence * cfg.unverifiedDiscount
        < cfg.reliability f.role * f.confidence * 1 :=
          mul_lt_mul_of_pos_left hdisc hbase
      _ = cfg.reliability f.role * f.confidence * 1 := rfl
  simpa only [clusterWeight, List.map_cons, List.sum_cons] using add_lt_add_right hw _

/-- Witness for C7 at a concrete configuration and Finding. -/
theorem unverified_discount_strict_check :
    clusterWeight cfg7 [{ f7 with verified := false }] < clusterWeight cfg7 [f7] :=
  unverified_discount_strict cfg7 f7 [] (by norm_num [cfg7])
    (by norm_num [f7]) (by norm_num [cfg7]) rfl

/-- C8: with a positive degraded-mode penalty and an unpenalised confidence in
(0,1], a run with exactly one degraded stage has strictly lower final
confidence than the otherwise-identical run with no degraded stage; both
values are the clamped-to-[0,1] confidence of §4.5. -/
theorem degraded_penalty_strict (cfg : ConsensusConfig) (share cleanFrac : ℚ)
    (hpen : 0 < cfg.degradedPenalty) (hpos : 0 < share * cleanFrac)
    (hle : share * cleanFrac ≤ 1) :
    finalConfidence cfg share cleanFrac 1 < finalConfidence cfg share cleanFrac 0 := by
  unfold finalConfidence clamp01
  rw [Nat.cast_one, Nat.cast_zero, mul_zero, sub_zero, mul_one]
  rw [min_eq_right hle, max_eq_right hpos.le]
  have hxlt : share * cleanFrac - cfg.degradedPenalty < share * cleanFrac := by linarith
  rw [min_eq_right (le_trans hxlt.le hle)]
  exact max_lt hpos hxlt

/-- Witness for C8 at a concrete configuration. -/
theorem degraded_penalty_strict_check :
    finalConfidence cfg8 1 1 1 < finalConfidence cfg8 1 1 0 :=
  degraded_penalty_strict cfg8 1 1 (by norm_num [cfg8]) (by norm_num) (by norm_num)

/-- C10: the upload page's per-image updates are frame-preserving — both
`retryUpload` and `handleUploadProgress` keep the list length (and positional
order), leave every entry whose id differs from the given id completely
unchanged, and rewrite a matching entry to exactly the specified record update
(retry: status "uploading", progress 0, error cleared; progress handler: only
the progress field). -/
theorem upload_updates_frame (imageId : String) (p : ℚ)
    (imgs : List UploadedImage) (i : Nat) (img : UploadedImage)
    (h : imgs[i]? = some img) :
    (retryUpload imageId imgs).length = imgs.length ∧
    (handleUploadProgress imageId p imgs).length = imgs.length ∧
    (img.id ≠ imageId →
      (retryUpload imageId imgs)[i]? = some img ∧
      (handleUploadProgress imageId p imgs)[i]? = some img) ∧
    (img.id = imageId →
      (retryUpload imageId imgs)[i]? =
        some { img with status := UploadStatus.uploading, progress := 0, error := none } ∧
      (handleUploadProgress imageId p imgs)[i]? = some { img with progress := p }) := by
  refine ⟨by simp [retryUpload], by simp [handleUploadProgress], ?_, ?_⟩
  · intro hne
    constructor <;> simp [retryUpload, handleUploadProgress, List.getElem?_map, h, hne]
  · intro heq
    constructor <;> simp [retryUpload, handleUploadProgress, List.getElem?_map, h, heq]

/-- Witness for C10 on a concrete two-element list: the non-matching entry is
untouched, the matching entry gets exactly the specified update. -/
theorem upload_updates_frame_check :
    (retryUpload "a" [imgA, imgB])[1]? = some imgB ∧
    (retryUpload "a" [imgA, imgB])[0]? =
      some { imgA with status := UploadStatus.uploading, progress := 0, error := none } ∧
    (handleUploadProgress "a" (3/4) [imgA, imgB])[0]? = some { imgA with progress := 3/4 } :=
  ⟨((upload_updates_frame "a" (3/4) [imgA, imgB] 1 imgB rfl).2.2.1 (by decide)).1,
   ((upload_updates_frame "a" (3/4) [imgA, imgB] 0 imgA rfl).2.2.2 (by decide)).1,
   ((upload_updates_frame "a" (3/4) [imgA, imgB] 0 imgA rfl).2.2.2 (by decide)).2⟩

theorem foldBest_cons (cfg : ConsensusConfig) (c d : List Finding)
    (cs : List (List Finding)) :
    foldBest cfg c (d :: cs) =
      foldBest cfg (if clusterWeight cfg c < clusterWeight cfg d then d else c) cs := rfl

theorem foldBest_ge_init (cfg : ConsensusConfig) (cs : List (List Finding))
    (c : List Finding) :
    clusterWeight cfg c ≤ clusterWeight cfg (foldBest cfg c cs) := by
  induction cs generalizing c with
  | nil => exact le_refl _
  | cons d cs ih =>
      rw [foldBest_cons]
      by_cases h : clusterWeight cfg c < clusterWeight cfg d
      · rw [if_pos h]
        exact le_trans h.le (ih d)
      · rw [if_neg h]
        exact ih c

theorem foldBest_ge_mem (cfg : ConsensusConfig) (cs : List (List Finding))
    (c d : List Finding) (hd : d ∈ cs) :
    clusterWeight cfg d ≤ clusterWeight cfg (foldBest cfg c cs) := by
  induction cs generalizing c with
  | nil => cases hd
  | cons e cs ih =>
      rw [foldBest_cons]
      rcases List.mem_cons.mp hd with rfl | hmem
      · by_cases h : clusterWeight cfg c < clusterWeight cfg d
        · rw [if_pos h]
          exact foldBest_ge_init cfg cs d
        · rw [if_neg h]
          exact le_trans (not_lt.mp h) (foldBest_ge_init cfg cs c)
      · exact ih _ hmem

theorem pickPrimary_max (cfg : ConsensusConfig) (cs : List (List Finding))
    (primary : List Finding) (hp : pickPrimary cfg cs = some primary) :
    ∀ c ∈ cs, clusterWeight cfg c ≤ clusterWeight cfg primary := by
  cases cs with
  | nil => cases hp
  | cons c0 cs =>
      injection hp with hp
      subst hp
      intro c hc
      rcases List.mem_cons.mp hc with rfl | hmem
      · exact foldBest_ge_init cfg cs c
      · exact foldBest_ge_mem cfg cs c0 c hmem

theorem mem_rankedAlternatives (cfg : ConsensusConfig) (sorted primary x : List Finding)
    (hx : x ∈ rankedAlternatives cfg sorted primary) : x ∈ buildClusters cfg sorted := by
  have h1 : x ∈ sortClustersByWeight cfg ((buildClusters cfg sorted).erase primary) :=
    List.mem_of_mem_take hx
  have h2 : x ∈ (buildClusters cfg sorted).erase primary :=
    ((List.perm_insertionSort (weightGE cfg) _).mem_iff).mp h1
  exact List.mem_of_mem_erase h2

theorem rankedAlternatives_pairwise (cfg : ConsensusConfig) (sorted primary : List Finding) :
    (rankedAlternatives cfg sorted primary).Pairwise (weightGE cfg) :=
  List.Pairwise.sublist (List.take_sublist _ _)
    (List.sorted_insertionSort (weightGE cfg) _)

theorem rankedAlternatives_length (cfg : ConsensusConfig) (sorted primary : List Finding) :
    (rankedAlternatives cfg sorted primary).length ≤ cfg.topK := by
  unfold rankedAlternatives
  rw [List.length_take]
  exact min_le_left _ _

theorem clamp01_nonneg (x : ℚ) : 0 ≤ clamp01 x := le_max_left 0 _

theorem clamp01_le_one (x : ℚ) : clamp01 x ≤ 1 :=
  max_le zero_le_one (min_le_left _ _)

/-- C2: whenever the engine completes (the aggregation returns a
ConsensusResult), the final confidence lies in [0,1], the primary cluster's
weight is at least the weight of every ranked alternative, and the
alternatives are ordered by non-increasing cluster weight and truncated to
the configured top-k. -/
theorem consensus_result_wellformed (cfg : ConsensusConfig) (stages : List StageInfo)
    (fs : List Finding) (r : ConsensusResult)
    (h : consensus cfg stages fs = Except.ok r) :
    0 ≤ r.confidence ∧ r.confidence ≤ 1 ∧
    (∀ c ∈ r.alternatives, clusterWeight cfg c ≤ clusterWeight cfg r.primaryCluster) ∧
    r.alternatives.Pairwise (weightGE cfg) ∧
    r.alternatives.length ≤ cfg.topK := by
  unfold consensus consensusSorted at h
  split at h
  · cases h
  · rename_i primary hp
    split at h
    · cases h
    · injection h with h
      subst h
      refine ⟨clamp01_nonneg _, clamp01_le_one _, ?_, ?_, ?_⟩
      · intro c hc
        exact pickPrimary_max cfg _ primary hp c
          (mem_rankedAlternatives cfg _ primary c hc)
      · exact rankedAlternatives_pairwise cfg _ primary
      · exact rankedAlternatives_length cfg _ primary

/-- Witness for C2: a concrete completed aggregation satisfies the bounds. -/
theorem consensus_result_wellformed_check :
    0 ≤ r2w.confidence ∧ r2w.confidence ≤ 1 ∧ r2w.alternatives.length ≤ cfg2w.topK := by
  have hnotmin : ¬ clusterWeight cfg2w [g2w] < cfg2w.minViableWeight := by
    norm_num [clusterWeight, findingWeight, g2w, cfg2w]
  have hok : consensus cfg2w [] [g2w] = Except.ok r2w := by
    show (if clusterWeight cfg2w [g2w] < cfg2w.minViableWeight then
        Except.error [g2w] else Except.ok (mkResult cfg2w [] [g2w] [g2w])) = Except.ok r2w
    rw [if_neg hnotmin]
    rfl
  obtain ⟨h1, h2, _, _, h5⟩ := consensus_result_wellformed cfg2w [] [g2w] r2w hok
  exact ⟨h1, h2, h5⟩

theorem canonicalOrder_perm_eq (fs1 fs2 : List Finding) (hperm : fs1.Perm fs2)
    (hnodup : (fs1.map Finding.fid).Nodup) :
    canonicalOrder fs1 = canonicalOrder fs2 := by
  have hnodup2 : (fs2.map Finding.fid).Nodup :=
    ((hperm.map Finding.fid).nodup_iff).mp hnodup
  have hp : (canonicalOrder fs1).Perm (canonicalOrder fs2) :=
    ((List.perm_insertionSort byId fs1).trans hperm).trans
      (List.perm_insertionSort byId fs2).symm
  have hsym : ∀ {a b : Finding}, a.fid ≠ b.fid → b.fid ≠ a.fid := fun h => h.symm
  have hne1 : (canonicalOrder fs1).Pairwise (fun a b => a.fid ≠ b.fid) := by
    have h0 : fs1.Pairwise (fun a b => a.fid ≠ b.fid) := List.pairwise_map.mp hnodup
    exact (List.Perm.pairwise_iff hsym (List.perm_insertionSort byId fs1)).mpr h0
  have hne2 : (canonicalOrder fs2).Pairwise (fun a b => a.fid ≠ b.fid) := by
    have h0 : fs2.Pairwise (fun a b => a.fid ≠ b.fid) := List.pairwise_map.mp hnodup2
    exact (List.Perm.pairwise_iff hsym (List.perm_insertionSort byId fs2)).mpr h0
  have hs1 : (canonicalOrder fs1).Pairwise byIdStrict :=
    ((List.sorted_insertionSort byId fs1).and hne1).imp
      (fun h => Nat.lt_of_le_of_ne h.1 h.2)
  have hs2 : (canonicalOrder fs2).Pairwise byIdStrict :=
    ((List.sorted_insertionSort byId fs2).and hne2).imp
      (fun h => Nat.lt_of_le_of_ne h.1 h.2)
  exact List.eq_of_perm_of_sorted hp hs1 hs2

/-- C1: the aggregation is deterministic on the collected set of Findings —
for a fixed configuration and fixed stage information, any two invocations on
the same finite set of Findings (any two orderings of it, with ids pairwise
distinct) produce the identical result: same primary prediction, same final
confidence, and the same ordered list of ranked alternatives. -/
theorem consensus_deterministic (cfg : ConsensusConfig) (stages : List StageInfo)
    (fs1 fs2 : List Finding) (hperm : fs1.Perm fs2)
    (hnodup : (fs1.map Finding.fid).Nodup) :
    consensus cfg stages fs1 = consensus cfg stages fs2 := by
  unfold consensus
  rw [canonicalOrder_perm_eq fs1 fs2 hperm hnodup]

/-- Witness for C1: the two orderings of a concrete two-element set of
Findings aggregate identically. -/
theorem consensus_deterministic_check :
    consensus cfg1w [] [fa, fb] = consensus cfg1w [] [fb, fa] :=
  consensus_deterministic cfg1w [] [fa, fb] [fb, fa]
    (List.Perm.swap fb fa []) (by decide)

theorem runRequestGo_quorum (cfg : OrchConfig) (stages : List (List TaskRecord))
    (accF : List Finding) (accI : List StageInfo)
    (h : ∃ s ∈ stages, quorumMet cfg.quorum s = false) :
    ∃ pre s rest, stages = pre ++ s :: rest ∧
      (∀ t ∈ pre, quorumMet cfg.quorum t = true) ∧
      quorumMet cfg.quorum s = false ∧
      runRequestGo cfg stages accF accI =
        RequestFinal.failed FailureReason.quorumNotMet
          (accF ++ (pre.flatMap stageFindings ++ stageFindings s)) := by
  induction stages generalizing accF accI with
  | nil =>
      obtain ⟨s, hs, _⟩ := h
      cases hs
  | cons s0 rest ih =>
      by_cases h0 : quorumMet cfg.quorum s0 = true
      · have hrest : ∃ s ∈ rest, quorumMet cfg.quorum s = false := by
          obtain ⟨s, hs, hq⟩ := h
          rcases List.mem_cons.mp hs with rfl | hmem
          · rw [h0] at hq; cases hq
          · exact ⟨s, hmem, hq⟩
        obtain ⟨pre, s, rest', heq, hpre, hq, hrun⟩ :=
          ih (accF ++ stageFindings s0) (accI ++ [mkStageInfo cfg s0]) hrest
        refine ⟨s0 :: pre, s, rest', by rw [heq]; rfl, ?_, hq, ?_⟩
        · intro t ht
          rcases List.mem_cons.mp ht with rfl | hmem
          · exact h0
          · exact hpre t hmem
        · show runRequestGo cfg (s0 :: rest) accF accI = _
          rw [runRequestGo, if_pos h0, hrun]
          congr 1
          simp [List.append_assoc]
      · have h0' : quorumMet cfg.quorum s0 = false := by
          revert h0
          cases quorumMet cfg.quorum s0 <;> simp
        refine ⟨[], s0, rest, rfl, ?_, h0', ?_⟩
        · intro t ht
          cases ht
        · rw [runRequestGo, if_neg (by rw [h0']; exact Bool.false_ne_true)]
          simp

/-- C3: whenever some stage of a request misses the configured quorum, the
run stops at the first such stage and terminates FAILED with the
QuorumNotMetError reason code, carrying exactly the Findings gathered up to
and including that stage, and no ConsensusResult is ever produced (the run is
never COMPLETED). -/
theorem quorum_not_met_fails (cfg : OrchConfig) (stages : List (List TaskRecord))
    (h : ∃ s ∈ stages, quorumMet cfg.quorum s = false) :
    (∃ pre s rest, stages = pre ++ s :: rest ∧
      (∀ t ∈ pre, quorumMet cfg.quorum t = true) ∧
      quorumMet cfg.quorum s = false ∧
      runRequest cfg stages =
        RequestFinal.failed FailureReason.quorumNotMet
          (pre.flatMap stageFindings ++ stageFindings s)) ∧
    ∀ r, runRequest cfg stages ≠ RequestFinal.completed r := by
  obtain ⟨pre, s, rest, heq, hpre, hq, hrun⟩ := runRequestGo_quorum cfg stages [] [] h
  have hrun' : runRequest cfg stages =
      RequestFinal.failed FailureReason.quorumNotMet
        (pre.flatMap stageFindings ++ stageFindings s) := by
    show runRequestGo cfg stages [] [] = _
    rw [hrun]
    simp
  refine ⟨⟨pre, s, rest, heq, hpre, hq, hrun'⟩, ?_⟩
  intro r hc
  rw [hrun'] at hc
  cases hc

/-- Witness for C3: a single stage whose only task FAILED misses a quorum of
1, so the concrete request is not COMPLETED. -/
theorem quorum_not_met_fails_check :
    runRequest cfg3o [[recF]] ≠ RequestFinal.completed emptyConsensus :=
  (quorum_not_met_fails cfg3o [[recF]]
    ⟨[recF], List.mem_singleton.mpr rfl, by
      simp only [quorumMet, cfg3o]
      rw [show List.countP (fun r => decide (r.state = TaskState.done)) [recF] = 0 from
        by decide]
      exact decide_eq_false (by norm_num)⟩).2 emptyConsensus

theorem runTask_terminal (m : Nat) (script : List AttemptOutcome) :
    (runTask m script).1 = TaskState.done ∨ (runTask m script).1 = TaskState.failed := by
  induction m generalizing script with
  | zero => right; rfl
  | succ n ih =>
      cases script with
      | nil => right; rfl
      | cons a rest =>
          cases a with
          | ok f => left; rfl
          | err e => simpa [runTask] using ih rest

theorem runRequestGo_faces (cfg : OrchConfig) (stages : List (List TaskRecord))
    (accF : List Finding) (accI : List StageInfo) :
    (∃ r, runRequestGo cfg stages accF accI = RequestFinal.completed r) ∨
    (∃ reason gathered,
      runRequestGo cfg stages accF accI = RequestFinal.failed reason gathered) := by
  induction stages generalizing accF accI with
  | nil =>
      cases hc : consensus cfg.ccfg accI accF with
      | ok r => exact Or.inl ⟨r, by rw [runRequestGo, hc]⟩
      | error fs =>
          exact Or.inr ⟨FailureReason.aggregationConflict, fs, by rw [runRequestGo, hc]⟩
  | cons s rest ih =>
      by_cases hq : quorumMet cfg.quorum s = true
      · have := ih (accF ++ stageFindings s) (accI ++ [mkStageInfo cfg s])
        rwa [show runRequestGo cfg (s :: rest) accF accI =
          runRequestGo cfg rest (accF ++ stageFindings s) (accI ++ [mkStageInfo cfg s]) from
            by rw [runRequestGo, if_pos hq]]
      · exact Or.inr ⟨FailureReason.quorumNotMet, accF ++ stageFindings s, by
          rw [runRequestGo, if_neg hq]⟩

/-- C4: per-attempt and per-task errors are absorbed and recorded locally —
executing a task always ends in the terminal state DONE or FAILED (never an
escaping exception), each attempt error is prepended to the locally recorded
error list; every run of a request ends either COMPLETED or FAILED with a
structured reason code and gathered Findings, and `getResult` on a FAILED
request returns exactly that structured failure object. -/
theorem errors_absorbed_structured :
    (∀ (m tid : Nat) (script : List AttemptOutcome),
      (executeTask m tid script).state = TaskState.done ∨
      (executeTask m tid script).state = TaskState.failed) ∧
    (∀ (m : Nat) (e : AttemptError) (rest : List AttemptOutcome),
      (runTask (m + 1) (AttemptOutcome.err e :: rest)).2.2 = e :: (runTask m rest).2.2) ∧
    (∀ (cfg : OrchConfig) (stages : List (List TaskRecord)),
      (∃ r, runRequest cfg stages = RequestFinal.completed r) ∨
      (∃ reason gathered,
        runRequest cfg stages = RequestFinal.failed reason gathered ∧
        getResult (runRequest cfg stages) = ResultView.failure reason gathered)) ∧
    (∀ (reason : FailureReason) (gathered : List Finding),
      getResult (RequestFinal.failed reason gathered) = ResultView.failure reason gathered) := by
  refine ⟨?_, ?_, ?_, fun reason gathered => rfl⟩
  · intro m tid script
    exact runTask_terminal m script
  · intro m e rest
    rfl
  · intro cfg stages
    rcases runRequestGo_faces cfg stages [] [] with ⟨r, hr⟩ | ⟨reason, gathered, hr⟩
    · exact Or.inl ⟨r, hr⟩
    · refine Or.inr ⟨reason, gathered, hr, ?_⟩
      show getResult (runRequestGo cfg stages [] []) = _
      rw [hr]
      rfl

/-- C6: stages execute strictly sequentially — in every state reachable by
the orchestration step function (which keeps at most one stage in flight and
creates the next stage's tasks only when no stage is in flight), every sealed
stage has all of its tasks terminal and its StageSummary formed; hence no
later-stage task ever exists while an earlier stage's task is non-terminal
or its summary unformed. -/
theorem stages_strictly_sequential (script : List (List TaskState)) (n : Nat) :
    ∀ rec ∈ ((orchStep script)^[n] initOrch).doneStages,
      rec.tasks.all TaskState.isTerminal = true ∧ rec.summaryFormed = true := by
  induction n with
  | zero =>
      intro rec hrec
      simp [initOrch] at hrec
  | succ n ih =>
      intro rec hrec
      rw [Function.iterate_succ_apply'] at hrec
      set st := (orchStep script)^[n] initOrch
      cases hcur : st.current with
      | none =>
          simp only [orchStep, hcur] at hrec
          split at hrec
          · exact ih rec hrec
          · exact ih rec hrec
      | some ps =>
          simp only [orchStep, hcur] at hrec
          by_cases hall : ps.all (fun p => p.2.isTerminal) = true
          · rw [if_pos hall] at hrec
            rcases List.mem_append.mp hrec with hmem | hmem
            · exact ih rec hmem
            · rw [List.mem_singleton] at hmem
              subst hmem
              refine ⟨?_, rfl⟩
              show (ps.map (fun x => x.2)).all TaskState.isTerminal = true
              rw [List.all_eq_true]
              intro x hx
              obtain ⟨p, hp, rfl⟩ := List.mem_map.mp hx
              exact List.all_eq_true.mp hall p hp
          · rw [if_neg hall] at hrec
            exact ih rec hrec

/-- Witness for C6: after four steps on a one-stage script the sealed stage
is terminal with its summary formed. -/
theorem stages_strictly_sequential_check :
    ({ tasks := [TaskState.done], summaryFormed := true } : StageRec).tasks.all
        TaskState.isTerminal = true ∧
    ({ tasks := [TaskState.done], summaryFormed := true } : StageRec).summaryFormed = true :=
  stages_strictly_sequential script0 4
    { tasks := [TaskState.done], summaryFormed := true } (by decide)

/-- C9: for any three Findings where the two lowest-id ones (confidence 0.7
each, verified, equal positive role reliability) lie within the cluster
radius of each other while the third (confidence 0.9, same reliability) lies
beyond the radius from both, the aggregation completes and its primary
prediction is the two-member cluster; every ranked alternative — in
particular the outlier's cluster — has strictly smaller cluster weight than
the primary. -/
theorem two_agree_beats_outlier (cfg : ConsensusConfig) (stages : List StageInfo)
    (f1 f2 f3 : Finding) (rel : ℚ)
    (hid12 : f1.fid < f2.fid) (hid23 : f2.fid < f3.fid)
    (hnear : near cfg f2 f1 = true)
    (hfar1 : near cfg f3 f1 = false) (hfar2 : near cfg f3 f2 = false)
    (hc1 : f1.confidence = 7/10) (hc2 : f2.confidence = 7/10)
    (hc3 : f3.confidence = 9/10)
    (hv1 : f1.verified = true) (hv2 : f2.verified = true) (hv3 : f3.verified = true)
    (hr1 : cfg.reliability f1.role = rel) (hr2 : cfg.reliability f2.role = rel)
    (hr3 : cfg.reliability f3.role = rel) (hrel : 0 < rel)
    (hmin : cfg.minViableWeight ≤ 7/5 * rel) :
    ∃ r, consensus cfg stages [f1, f2, f3] = Except.ok r ∧
      r.primaryCluster = [f1, f2] ∧
      ∀ c ∈ r.alternatives, clusterWeight cfg c < clusterWeight cfg r.primaryCluster := by
  have h12 : byId f1 f2 := le_of_lt hid12
  have h23 : byId f2 f3 := le_of_lt hid23
  have hsort : canonicalOrder [f1, f2, f3] = [f1, f2, f3] := by
    unfold canonicalOrder
    simp only [List.insertionSort, List.orderedInsert]
    rw [if_pos h23]
    simp only [List.orderedInsert]
    rw [if_pos h12]
  have hins2 : insertFinding cfg f2 [[f1]] = [[f1, f2]] := by
    simp [insertFinding, hnear]
  have hins3 : insertFinding cfg f3 [[f1, f2]] = [[f1, f2], [f3]] := by
    simp [insertFinding, hfar1, hfar2]
  have hclus : buildClusters cfg [f1, f2, f3] = [[f1, f2], [f3]] := by
    unfold buildClusters
    simp only [List.foldl_cons, List.foldl_nil]
    rw [show insertFinding cfg f1 [] = [[f1]] from rfl, hins2, hins3]
  have hw12 : clusterWeight cfg [f1, f2] = 7/5 * rel := by
    simp [clusterWeight, findingWeight, hc1, hc2, hv1, hv2, hr1, hr2]
    ring
  have hw3 : clusterWeight cfg [f3] = 9/10 * rel := by
    simp [clusterWeight, findingWeight, hc3, hv3, hr3]
    ring
  have hnotlt : ¬ clusterWeight cfg [f1, f2] < clusterWeight cfg [f3] := by
    rw [hw12, hw3]
    intro hcon
    linarith
  have hpick : pickPrimary cfg [[f1, f2], [f3]] = some [f1, f2] := by
    simp only [pickPrimary, foldBest, List.foldl_cons, List.foldl_nil]
    rw [if_neg hnotlt]
  have hnotmin : ¬ clusterWeight cfg [f1, f2] < cfg.minViableWeight := by
    rw [hw12]
    exact not_lt.mpr hmin
  have hcons : consensus cfg stages [f1, f2, f3] =
      Except.ok (mkResult cfg stages [f1, f2, f3] [f1, f2]) := by
    unfold consensus
    rw [hsort]
    unfold consensusSorted
    rw [hclus, hpick]
    show (if clusterWeight cfg [f1, f2] < cfg.minViableWeight then
        Except.error [f1, f2, f3] else
        Except.ok (mkResult cfg stages [f1, f2, f3] [f1, f2])) = _
    rw [if_neg hnotmin]
  have halts : rankedAlternatives cfg [f1, f2, f3] [f1, f2] = [[f3]].take cfg.topK := by
    unfold rankedAlternatives
    rw [hclus, List.erase_cons_head,
      show sortClustersByWeight cfg [[f3]] = [[f3]] from rfl]
  refine ⟨mkResult cfg stages [f1, f2, f3] [f1, f2], hcons, rfl, ?_⟩
  intro c hc
  have hc' : c ∈ [[f3]].take cfg.topK := by
    rw [show (mkResult cfg stages [f1, f2, f3] [f1, f2]).alternatives =
      rankedAlternatives cfg [f1, f2, f3] [f1, f2] from rfl, halts] at hc
    exact hc
  have hc3' : c = [f3] := List.mem_singleton.mp (List.mem_of_mem_take hc')
  subst hc3'
  show clusterWeight cfg [f3] < clusterWeight cfg [f1, f2]
  rw [hw12, hw3]
  linarith

/-- Witness for C9: the concrete three-Finding scenario — two agreeing
Findings at confidence 0.7 and a distant outlier at 0.9 — completes with the
two-member cluster as primary prediction. -/
theorem two_agree_beats_outlier_check :
    consensus cfg9 [] [g1, g2, g3] = Except.ok res9 ∧ res9.primaryCluster = [g1, g2] := by
  obtain ⟨r, h1, h2, _⟩ := two_agree_beats_outlier cfg9 [] g1 g2 g3 1
    (by decide) (by decide)
    (by simp only [near]; exact decide_eq_true (by norm_num [distSq, g1, g2, cfg9]))
    (by simp only [near]; exact decide_eq_false (by norm_num [distSq, g1, g3, cfg9]))
    (by simp only [near]; exact decide_eq_false (by norm_num [distSq, g2, g3, cfg9]))
    rfl rfl rfl rfl rfl rfl rfl rfl rfl
    one_pos (by norm_num [cfg9])
  have he : consensus cfg9 [] [g1, g2, g3] = Except.ok res9 := by
    show consensus cfg9 [] [g1, g2, g3] =
      Except.ok ((consensus cfg9 [] [g1, g2, g3]).toOption.getD emptyConsensus)
    rw [h1]
    rfl
  refine ⟨he, ?_⟩
  have hr : r = res9 := Except.ok.inj (h1.symm.trans he)
  rw [← hr]
  exact h2
